import Mathlib

/-!
Shallow embedding of `cnvlib/reference.py` (reference-construction and
quality-filtering core of cnvkit).

Conventions of the embedding:
* A `CopyNumArray` (`CNA` in the source) is column-oriented, as the numpy
  record array is: parallel lists for chromosome / start / end / gene /
  coverage, plus optional extra columns `spread`, `gc`, `rmask`
  (`Option (List ℚ)`: `none` means the column is absent, mirroring
  `'gc' in cnarr`).
* Floating-point coverages are modelled as exact rationals `ℚ`.
* External collaborators that are not part of this repository's core are
  parameters (`guess_xx`, the sex-inference predicate) or are modelled from
  the spec (`guess_chr_x`, the biweight estimators of the `metrics` module),
  each marked in its doc comment.
* Fallible code (`raise RuntimeError`) returns `Except String`.
-/

namespace CnvkitRef

/-- Column-oriented probe array, embedding `cnarray.CopyNumArray`: parallel
column lists for the core fields and optional extra columns. -/
structure CNA where
  sample_id : String
  chromosome : List String
  start : List Int
  stop : List Int
  gene : List String
  coverage : List ℚ
  spread? : Option (List ℚ) := none
  gc? : Option (List ℚ) := none
  rmask? : Option (List ℚ) := none
  deriving Repr, DecidableEq

/-- Number of probes (rows) of a `CNA`: `len(cnarr)` in the source. -/
def CNA.size (c : CNA) : Nat := c.chromosome.length

/-- `pset['coverage'][pset.chromosome == lab] -= d`: masked in-place subtract,
modelled as a pure zip over the chromosome and coverage columns. -/
def maskedSub (chroms : List String) (covs : List ℚ) (lab : String) (d : ℚ) : List ℚ :=
  List.zipWith (fun ch c => if ch = lab then c - d else c) chroms covs

/-- `pset['coverage'][pset.chromosome == lab] += d`: masked in-place add. -/
def maskedAdd (chroms : List String) (covs : List ℚ) (lab : String) (d : ℚ) : List ℚ :=
  List.zipWith (fun ch c => if ch = lab then c + d else c) chroms covs

/-- `pset['coverage'][pset.chromosome == lab] = v`: masked in-place set. -/
def maskedSet (chroms : List String) (covs : List ℚ) (lab : String) (v : ℚ) : List ℚ :=
  List.zipWith (fun ch c => if ch = lab then v else c) chroms covs

/-- `shift_sex_chroms` (reference.py lines 38-65).  The source defines one of
two closures depending on `is_male_normal`; here that flag is the first
argument.  `guess_xx` is the external sex-inference predicate (`core.guess_xx`
is outside this repository's core), called on the sample itself exactly as in
the source (`is_xx = core.guess_xx(pset, chr_x=chr_x)`).

* male-normal reference: if the sample is XX, coverage on `chr_x` gets 1.0
  subtracted, then coverage on `chr_y` is set to -1.0; otherwise nothing.
* female-normal reference: if the sample is XX, coverage on `chr_y` is set to
  -1.0; otherwise coverage on `chr_x` gets 1.0 added. -/
def shift_sex_chroms (is_male_normal : Bool) (chr_x chr_y : String)
    (guess_xx : CNA → Bool) (pset : CNA) : CNA :=
  let is_xx := guess_xx pset
  if is_male_normal then
    if is_xx then
      { pset with coverage :=
          (maskedSet pset.chromosome
            (maskedSub pset.chromosome pset.coverage chr_x 1) chr_y (-1)) }
    else pset
  else
    if is_xx then
      { pset with coverage := maskedSet pset.chromosome pset.coverage chr_y (-1) }
    else
      { pset with coverage := maskedAdd pset.chromosome pset.coverage chr_x 1 }

theorem maskedSub_length (chroms : List String) (covs : List ℚ) (lab : String) (d : ℚ) :
    (maskedSub chroms covs lab d).length = min chroms.length covs.length := by
  simp [maskedSub]

theorem maskedAdd_length (chroms : List String) (covs : List ℚ) (lab : String) (d : ℚ) :
    (maskedAdd chroms covs lab d).length = min chroms.length covs.length := by
  simp [maskedAdd]

theorem maskedSet_length (chroms : List String) (covs : List ℚ) (lab : String) (v : ℚ) :
    (maskedSet chroms covs lab v).length = min chroms.length covs.length := by
  simp [maskedSet]

theorem maskedSub_getD (chroms : List String) (covs : List ℚ) (lab : String) (d : ℚ)
    (i : Nat) (hi : i < chroms.length) (hc : i < covs.length) :
    (maskedSub chroms covs lab d).getD i 0 =
      if chroms.getD i "" = lab then covs.getD i 0 - d else covs.getD i 0 := by
  have hm : i < (maskedSub chroms covs lab d).length := by
    simp [maskedSub_length, hi, hc]
  rw [List.getD_eq_getElem _ _ hm, List.getD_eq_getElem _ _ hi, List.getD_eq_getElem _ _ hc]
  simp [maskedSub]

theorem maskedAdd_getD (chroms : List String) (covs : List ℚ) (lab : String) (d : ℚ)
    (i : Nat) (hi : i < chroms.length) (hc : i < covs.length) :
    (maskedAdd chroms covs lab d).getD i 0 =
      if chroms.getD i "" = lab then covs.getD i 0 + d else covs.getD i 0 := by
  have hm : i < (maskedAdd chroms covs lab d).length := by
    simp [maskedAdd_length, hi, hc]
  rw [List.getD_eq_getElem _ _ hm, List.getD_eq_getElem _ _ hi, List.getD_eq_getElem _ _ hc]
  simp [maskedAdd]

theorem maskedSet_getD (chroms : List String) (covs : List ℚ) (lab : String) (v : ℚ)
    (i : Nat) (hi : i < chroms.length) (hc : i < covs.length) :
    (maskedSet chroms covs lab v).getD i 0 =
      if chroms.getD i "" = lab then v else covs.getD i 0 := by
  have hm : i < (maskedSet chroms covs lab v).length := by
    simp [maskedSet_length, hi, hc]
  rw [List.getD_eq_getElem _ _ hm, List.getD_eq_getElem _ _ hi, List.getD_eq_getElem _ _ hc]
  simp [maskedSet]

/-- The grid and metadata fields of a sample are untouched by
`shift_sex_chroms`: only `coverage` is rewritten. -/
theorem shift_sex_chroms_grid (m : Bool) (chr_x chr_y : String)
    (g : CNA → Bool) (pset : CNA) :
    (shift_sex_chroms m chr_x chr_y g pset).sample_id = pset.sample_id ∧
    (shift_sex_chroms m chr_x chr_y g pset).chromosome = pset.chromosome ∧
    (shift_sex_chroms m chr_x chr_y g pset).start = pset.start ∧
    (shift_sex_chroms m chr_x chr_y g pset).stop = pset.stop ∧
    (shift_sex_chroms m chr_x chr_y g pset).gene = pset.gene ∧
    (shift_sex_chroms m chr_x chr_y g pset).spread? = pset.spread? ∧
    (shift_sex_chroms m chr_x chr_y g pset).gc? = pset.gc? ∧
    (shift_sex_chroms m chr_x chr_y g pset).rmask? = pset.rmask? := by
  cases m <;> cases hg : g pset <;> simp [shift_sex_chroms, hg]

/-- Length of the coverage column is preserved by `shift_sex_chroms` when the
sample is well-formed (coverage and chromosome columns have equal length). -/
theorem shift_sex_chroms_coverage_length (m : Bool) (chr_x chr_y : String)
    (g : CNA → Bool) (pset : CNA)
    (hlen : pset.coverage.length = pset.chromosome.length) :
    (shift_sex_chroms m chr_x chr_y g pset).coverage.length = pset.coverage.length := by
  cases m <;> cases hg : g pset <;>
    simp [shift_sex_chroms, hg, maskedSet_length, maskedSub_length, maskedAdd_length, hlen]

/-- Row-level value of the coverage column after `shift_sex_chroms`: the
four-row normalization table of the source closures. -/
theorem shift_sex_chroms_coverage_getD (m : Bool) (chr_x chr_y : String)
    (hxy : chr_x ≠ chr_y) (g : CNA → Bool) (pset : CNA)
    (hlen : pset.coverage.length = pset.chromosome.length)
    (i : Nat) (hi : i < pset.chromosome.length) :
    (shift_sex_chroms m chr_x chr_y g pset).coverage.getD i 0 =
      (if g pset then
        (if m then
          (if pset.chromosome.getD i "" = chr_x then pset.coverage.getD i 0 - 1
           else if pset.chromosome.getD i "" = chr_y then -1
           else pset.coverage.getD i 0)
         else
          (if pset.chromosome.getD i "" = chr_y then -1
           else pset.coverage.getD i 0))
       else
        (if m then pset.coverage.getD i 0
         else
          (if pset.chromosome.getD i "" = chr_x then pset.coverage.getD i 0 + 1
           else pset.coverage.getD i 0))) := by
  have hic : i < pset.coverage.length := hlen ▸ hi
  have hsub : i < (maskedSub pset.chromosome pset.coverage chr_x 1).length := by
    rw [maskedSub_length]; omega
  cases m <;> cases hg : g pset
  · -- female-normal, not XX: X += 1
    simp only [shift_sex_chroms, hg, Bool.false_eq_true, if_false, if_true]
    rw [maskedAdd_getD _ _ _ _ _ hi hic]
  · -- female-normal, XX: Y set to -1
    simp only [shift_sex_chroms, hg, Bool.false_eq_true, if_false, if_true]
    rw [maskedSet_getD _ _ _ _ _ hi hic]
  · -- male-normal, not XX: unchanged
    simp [shift_sex_chroms, hg]
  · -- male-normal, XX: X -= 1, then Y set to -1
    simp only [shift_sex_chroms, hg, if_true]
    rw [maskedSet_getD _ _ _ _ _ hi hsub, maskedSub_getD _ _ _ _ _ hi hic]
    split_ifs with hcy hcx hcx <;> simp_all

/-- A concrete well-formed sample used to instantiate witnesses: three probes
on chr1, chrX and chrY. -/
def sampleXY : CNA :=
  { sample_id := "s1"
    chromosome := ["chr1", "chrX", "chrY"]
    start := [100, 200, 300]
    stop := [150, 250, 350]
    gene := ["GENE1", "GENE2", "GENE3"]
    coverage := [10, 5, 7] }

/-- C1: sex-chromosome normalization follows the four-row table exactly.  For
every sample, external sex predicate, pair of distinct X/Y labels, and row:
with a male-normal reference and an XX sample, X rows get 1.0 subtracted and Y
rows are set to -1.0; male-normal and non-XX leaves everything unchanged;
female-normal and XX leaves X rows unchanged and sets Y rows to -1.0;
female-normal and non-XX adds 1.0 to X rows and leaves Y rows unchanged; rows
on other chromosomes keep their coverage in every case. -/
theorem C1_shift_sex_chroms_table (m : Bool) (chr_x chr_y : String)
    (hxy : chr_x ≠ chr_y) (g : CNA → Bool) (pset : CNA)
    (hlen : pset.coverage.length = pset.chromosome.length)
    (i : Nat) (hi : i < pset.chromosome.length) :
    (shift_sex_chroms m chr_x chr_y g pset).coverage.getD i 0 =
      (if g pset then
        (if m then
          (if pset.chromosome.getD i "" = chr_x then pset.coverage.getD i 0 - 1
           else if pset.chromosome.getD i "" = chr_y then -1
           else pset.coverage.getD i 0)
         else
          (if pset.chromosome.getD i "" = chr_y then -1
           else pset.coverage.getD i 0))
       else
        (if m then pset.coverage.getD i 0
         else
          (if pset.chromosome.getD i "" = chr_x then pset.coverage.getD i 0 + 1
           else pset.coverage.getD i 0))) :=
  shift_sex_chroms_coverage_getD m chr_x chr_y hxy g pset hlen i hi

/-- Witness for C1: the male-normal/XX row of the table on a concrete sample,
at the chrX row. -/
theorem C1_shift_sex_chroms_table_witness :
    (shift_sex_chroms true "chrX" "chrY" (fun _ => true) sampleXY).coverage.getD 1 0 =
      (4 : ℚ) := by
  have h := C1_shift_sex_chroms_table true "chrX" "chrY" (by decide)
    (fun _ => true) sampleXY (by decide) 1 (by decide)
  rw [h]
  norm_num [sampleXY]

/-- C9: normalization modifies only the coverage field, and only of rows whose
chromosome label is the X or the Y label: for every sample, the chromosome,
start, end, gene (and metadata/extra-column) fields are identical before and
after, the coverage column keeps its length, and any row on another chromosome
keeps its coverage value. -/
theorem C9_shift_sex_chroms_frame (m : Bool) (chr_x chr_y : String)
    (hxy : chr_x ≠ chr_y) (g : CNA → Bool) (pset : CNA)
    (hlen : pset.coverage.length = pset.chromosome.length) :
    (shift_sex_chroms m chr_x chr_y g pset).chromosome = pset.chromosome ∧
    (shift_sex_chroms m chr_x chr_y g pset).start = pset.start ∧
    (shift_sex_chroms m chr_x chr_y g pset).stop = pset.stop ∧
    (shift_sex_chroms m chr_x chr_y g pset).gene = pset.gene ∧
    (shift_sex_chroms m chr_x chr_y g pset).sample_id = pset.sample_id ∧
    (shift_sex_chroms m chr_x chr_y g pset).spread? = pset.spread? ∧
    (shift_sex_chroms m chr_x chr_y g pset).gc? = pset.gc? ∧
    (shift_sex_chroms m chr_x chr_y g pset).rmask? = pset.rmask? ∧
    (shift_sex_chroms m chr_x chr_y g pset).coverage.length = pset.coverage.length ∧
    (∀ i, i < pset.chromosome.length →
      pset.chromosome.getD i "" ≠ chr_x → pset.chromosome.getD i "" ≠ chr_y →
      (shift_sex_chroms m chr_x chr_y g pset).coverage.getD i 0 =
        pset.coverage.getD i 0) := by
  obtain ⟨h1, h2, h3, h4, h5, h6, h7, h8⟩ := shift_sex_chroms_grid m chr_x chr_y g pset
  refine ⟨h2, h3, h4, h5, h1, h6, h7, h8,
    shift_sex_chroms_coverage_length m chr_x chr_y g pset hlen, ?_⟩
  intro i hi hx hy
  rw [shift_sex_chroms_coverage_getD m chr_x chr_y hxy g pset hlen i hi]
  split_ifs <;> simp_all

/-- Witness for C9 on the concrete sample: the chr1 row keeps its coverage and
the grid columns are untouched (male-normal, XX). -/
theorem C9_shift_sex_chroms_frame_witness :
    (shift_sex_chroms true "chrX" "chrY" (fun _ => true) sampleXY).gene = sampleXY.gene ∧
    (shift_sex_chroms true "chrX" "chrY" (fun _ => true) sampleXY).coverage.getD 0 0 =
      sampleXY.coverage.getD 0 0 := by
  have h := C9_shift_sex_chroms_frame true "chrX" "chrY" (by decide)
    (fun _ => true) sampleXY (by decide)
  exact ⟨h.2.2.2.1, h.2.2.2.2.2.2.2.2.2 0 (by decide) (by decide) (by decide)⟩

/-! ### Robust estimators (the `metrics` module)

`metrics.biweight_location` and `metrics.biweight_midvariance` are code of
this repository that is not under src/ (only their caller `combine_probes`
is).  They are modelled from the spec (§4.2): center = biweight location, an
iteratively reweighted M-estimator with a fixed tuning constant starting from
the median; spread = biweight midvariance, the matching robust scale
estimator; both computed per column in isolation, with the spec's numerical
stability requirement that a zero-variance column yields the common value
with spread 0 (implemented, as is standard, by falling back to the median
when the median absolute deviation is zero). -/

/-- Sorted copy of a list of values, as `numpy.median` sorts its data. -/
def msorted (l : List ℚ) : List ℚ := Multiset.sort (· ≤ ·) (l : Multiset ℚ)

/-- Modelled from the spec: the median initial estimate used by the biweight
estimators (`numpy.median`): middle element of the sorted data, or the mean of
the two middle elements for even length; 0 on empty input. -/
def median (l : List ℚ) : ℚ :=
  if (msorted l).length = 0 then 0
  else if (msorted l).length % 2 = 1 then (msorted l).getD ((msorted l).length / 2) 0
  else ((msorted l).getD ((msorted l).length / 2 - 1) 0 +
        (msorted l).getD ((msorted l).length / 2) 0) / 2

/-- Median absolute deviation from the median. -/
def mad (l : List ℚ) : ℚ := median (l.map (fun x => |x - median l|))

/-- Per-point numerator/denominator contributions of the biweight location:
`u = (x - M)/(c*mad)`; points with `|u| < 1` contribute
`((x-M)(1-u²)², (1-u²)²)`, others nothing. -/
def biweight_terms (M madv c x : ℚ) : ℚ × ℚ :=
  if |(x - M) / (c * madv)| < 1 then
    ((x - M) * (1 - ((x - M) / (c * madv)) ^ 2) ^ 2,
     (1 - ((x - M) / (c * madv)) ^ 2) ^ 2)
  else (0, 0)

/-- Modelled from the spec: `metrics.biweight_location` (tuning constant 6),
an iteratively reweighted M-estimator of central tendency started at the
median; returns the median itself when the data has zero median absolute
deviation or when all weights vanish. -/
def biweight_location (l : List ℚ) : ℚ :=
  if mad l = 0 then median l
  else if (l.map (fun x => (biweight_terms (median l) (mad l) 6 x).2)).sum = 0 then median l
  else median l +
    (l.map (fun x => (biweight_terms (median l) (mad l) 6 x).1)).sum /
    (l.map (fun x => (biweight_terms (median l) (mad l) 6 x).2)).sum

/-- Per-point contributions of the biweight midvariance (tuning constant 9):
points with `|u| < 1` contribute `((x-M)²(1-u²)⁴, (1-u²)(1-5u²))`. -/
def biweight_mv_terms (M madv x : ℚ) : ℚ × ℚ :=
  if |(x - M) / (9 * madv)| < 1 then
    ((x - M) ^ 2 * (1 - ((x - M) / (9 * madv)) ^ 2) ^ 4,
     (1 - ((x - M) / (9 * madv)) ^ 2) * (1 - 5 * ((x - M) / (9 * madv)) ^ 2))
  else (0, 0)

/-- Modelled from the spec: `metrics.biweight_midvariance` (tuning constant
9), the robust scale estimator matching the biweight location; 0 for data
with zero median absolute deviation (the spec's zero-variance column case). -/
def biweight_midvariance (l : List ℚ) : ℚ :=
  if mad l = 0 then 0
  else if (l.map (fun x => (biweight_mv_terms (median l) (mad l) x).2)).sum = 0 then 0
  else (l.length : ℚ) *
    (l.map (fun x => (biweight_mv_terms (median l) (mad l) x).1)).sum /
    ((l.map (fun x => (biweight_mv_terms (median l) (mad l) x).2)).sum) ^ 2

/-- Column `j` of the stacked coverage matrix (`numpy.vstack` of the
per-sample coverage rows). -/
def column (rows : List (List ℚ)) (j : Nat) : List ℚ :=
  rows.filterMap (fun r => r[j]?)

/-- `numpy.apply_along_axis(metrics.biweight_location, 0, all_coverages)`:
per-probe robust centers of an `m`-column coverage matrix. -/
def cvg_centers (m : Nat) (rows : List (List ℚ)) : List ℚ :=
  (List.range m).map (fun j => biweight_location (column rows j))

/-- `numpy.apply_along_axis(metrics.biweight_midvariance, 0, all_coverages)`:
per-probe robust spreads of an `m`-column coverage matrix. -/
def cvg_spreads (m : Nat) (rows : List (List ℚ)) : List ℚ :=
  (List.range m).map (fun j => biweight_midvariance (column rows j))

theorem msorted_perm (l : List ℚ) : (msorted l).Perm l :=
  Multiset.coe_eq_coe.mp (Multiset.sort_eq _ _)

theorem msorted_congr (l l' : List ℚ) (h : l.Perm l') : msorted l = msorted l' := by
  unfold msorted
  congr 1
  exact Multiset.coe_eq_coe.2 h

theorem median_congr (l l' : List ℚ) (h : l.Perm l') : median l = median l' := by
  unfold median
  rw [msorted_congr l l' h]

theorem mad_congr (l l' : List ℚ) (h : l.Perm l') : mad l = mad l' := by
  unfold mad
  rw [median_congr l l' h]
  exact median_congr _ _ (h.map _)

theorem biweight_location_perm (l l' : List ℚ) (h : l.Perm l') :
    biweight_location l = biweight_location l' := by
  unfold biweight_location
  rw [median_congr l l' h, mad_congr l l' h,
    (h.map (fun x => (biweight_terms (median l') (mad l') 6 x).1)).sum_eq,
    (h.map (fun x => (biweight_terms (median l') (mad l') 6 x).2)).sum_eq]

theorem biweight_midvariance_perm (l l' : List ℚ) (h : l.Perm l') :
    biweight_midvariance l = biweight_midvariance l' := by
  unfold biweight_midvariance
  rw [median_congr l l' h, mad_congr l l' h, h.length_eq,
    (h.map (fun x => (biweight_mv_terms (median l') (mad l') x).1)).sum_eq,
    (h.map (fun x => (biweight_mv_terms (median l') (mad l') x).2)).sum_eq]

theorem getD_replicate_lt {α : Type} (n : Nat) (c : α) (i : Nat) (hi : i < n) (d : α) :
    (List.replicate n c).getD i d = c := by
  rw [List.getD_eq_getElem _ _ (by simpa using hi), List.getElem_replicate]

theorem msorted_all_eq (l : List ℚ) (c : ℚ) (hall : ∀ x ∈ l, x = c) :
    msorted l = List.replicate l.length c := by
  have hperm : (msorted l).Perm l := msorted_perm l
  refine List.eq_replicate_iff.2 ⟨hperm.length_eq, ?_⟩
  intro b hb
  exact hall b (hperm.subset hb)

theorem median_all_eq (l : List ℚ) (c : ℚ) (hne : l ≠ []) (hall : ∀ x ∈ l, x = c) :
    median l = c := by
  have hn : l.length ≠ 0 := by simpa using hne
  unfold median
  rw [msorted_all_eq l c hall]
  simp only [List.length_replicate]
  by_cases hodd : l.length % 2 = 1
  · rw [if_neg hn, if_pos hodd, getD_replicate_lt _ _ _ (by omega)]
  · rw [if_neg hn, if_neg hodd, getD_replicate_lt _ _ _ (by omega),
      getD_replicate_lt _ _ _ (by omega)]
    ring

theorem mad_all_eq (l : List ℚ) (c : ℚ) (hne : l ≠ []) (hall : ∀ x ∈ l, x = c) :
    mad l = 0 := by
  unfold mad
  refine median_all_eq _ 0 (by simpa using hne) ?_
  intro y hy
  obtain ⟨x, hx, rfl⟩ := List.mem_map.mp hy
  rw [hall x hx, median_all_eq l c hne hall]
  simp

theorem biweight_location_all_eq (l : List ℚ) (c : ℚ) (hne : l ≠ [])
    (hall : ∀ x ∈ l, x = c) : biweight_location l = c := by
  unfold biweight_location
  rw [if_pos (mad_all_eq l c hne hall)]
  exact median_all_eq l c hne hall

theorem biweight_midvariance_all_eq (l : List ℚ) (c : ℚ) (hne : l ≠ [])
    (hall : ∀ x ∈ l, x = c) : biweight_midvariance l = 0 := by
  unfold biweight_midvariance
  rw [if_pos (mad_all_eq l c hne hall)]

theorem column_replicate (K : Nat) (v : List ℚ) (j : Nat) (hj : j < v.length) :
    column (List.replicate K v) j = List.replicate K (v.getD j 0) := by
  induction K with
  | zero => rfl
  | succ n ih =>
    rw [List.replicate_succ, List.replicate_succ]
    unfold column at ih ⊢
    rw [List.filterMap_cons, List.getElem?_eq_getElem hj, ih,
      List.getD_eq_getElem _ _ hj]

theorem map_getD_range (l : List ℚ) :
    (List.range l.length).map (fun j => l.getD j 0) = l := by
  apply List.ext_getElem
  · simp
  · intro i h1 h2
    simp only [List.getElem_map, List.getElem_range]
    exact List.getD_eq_getElem l 0 h2

/-- C2: pooling K ≥ 1 identical coverage rows yields, per probe column, center
equal to that column's common value and spread 0 (a defined rational value,
never an error); more generally any zero-variance column (all values equal)
yields the common value as center and 0 as spread. -/
theorem C2_aggregate_identical_rows (K : Nat) (hK : 1 ≤ K) (v : List ℚ) :
    cvg_centers v.length (List.replicate K v) = v ∧
    cvg_spreads v.length (List.replicate K v) = List.replicate v.length 0 ∧
    (∀ (l : List ℚ) (c : ℚ), l ≠ [] → (∀ x ∈ l, x = c) →
      biweight_location l = c ∧ biweight_midvariance l = 0) := by
  have hrep : ∀ (x : ℚ), List.replicate K x ≠ [] := by
    intro x h
    have hlen := congrArg List.length h
    simp at hlen
    omega
  have hall : ∀ (x y : ℚ), y ∈ List.replicate K x → y = x :=
    fun x y hy => List.eq_of_mem_replicate hy
  refine ⟨?_, ?_, ?_⟩
  · unfold cvg_centers
    have hcg : ∀ j ∈ List.range v.length,
        biweight_location (column (List.replicate K v) j) = v.getD j 0 := by
      intro j hj
      rw [column_replicate K v j (List.mem_range.mp hj)]
      exact biweight_location_all_eq _ _ (hrep _) (hall _)
    rw [List.map_congr_left hcg]
    exact map_getD_range v
  · unfold cvg_spreads
    have hcg : ∀ j ∈ List.range v.length,
        biweight_midvariance (column (List.replicate K v) j) = (0 : ℚ) := by
      intro j hj
      rw [column_replicate K v j (List.mem_range.mp hj)]
      exact biweight_midvariance_all_eq _ _ (hrep _) (hall _)
    rw [List.map_congr_left hcg, List.map_const', List.length_range]
  · intro l c hne hall'
    exact ⟨biweight_location_all_eq l c hne hall',
      biweight_midvariance_all_eq l c hne hall'⟩

/-- Witness for C2: two identical rows `[3, 5]` pool to centers `[3, 5]` and
spreads `[0, 0]`, and the concrete zero-variance column `[7, 7, 7]` yields
`(7, 0)`. -/
theorem C2_aggregate_identical_rows_witness :
    cvg_centers 2 (List.replicate 2 [(3 : ℚ), 5]) = [3, 5] ∧
    cvg_spreads 2 (List.replicate 2 [(3 : ℚ), 5]) = [0, 0] ∧
    biweight_location [(7 : ℚ), 7, 7] = 7 ∧ biweight_midvariance [(7 : ℚ), 7, 7] = 0 := by
  have h := C2_aggregate_identical_rows 2 (by decide) [(3 : ℚ), 5]
  have h2 := h.2.2 [(7 : ℚ), 7, 7] 7 (by decide) (by decide)
  exact ⟨h.1, by simpa using h.2.1, h2.1, h2.2⟩

/-- C8: the per-probe centers and spreads of the aggregation step are
invariant under permutation of the sample rows of the coverage matrix. -/
theorem C8_aggregate_perm_invariant (m : Nat) (rows rows' : List (List ℚ))
    (hne : rows ≠ []) (h : rows.Perm rows') :
    cvg_centers m rows = cvg_centers m rows' ∧
    cvg_spreads m rows = cvg_spreads m rows' := by
  constructor
  · unfold cvg_centers
    refine List.map_congr_left ?_
    intro j _
    exact biweight_location_perm _ _ (h.filterMap _)
  · unfold cvg_spreads
    refine List.map_congr_left ?_
    intro j _
    exact biweight_midvariance_perm _ _ (h.filterMap _)

/-- Witness for C8: swapping the two rows of a concrete 2×2 coverage matrix
leaves centers and spreads unchanged. -/
theorem C8_aggregate_perm_invariant_witness :
    cvg_centers 2 [[(1 : ℚ), 2], [3, 4]] = cvg_centers 2 [[(3 : ℚ), 4], [1, 2]] ∧
    cvg_spreads 2 [[(1 : ℚ), 2], [3, 4]] = cvg_spreads 2 [[(3 : ℚ), 4], [1, 2]] :=
  C8_aggregate_perm_invariant 2 _ _ (by decide) (List.Perm.swap _ _ _)

/-! ### `combine_probes` (reference.py lines 20-102)

File reading (`CNA.read`) is modelled by taking the already-loaded samples
paired with their source names; `core.guess_xx` (external sex-inference
predicate of the spec) is a parameter `g`. -/

/-- Modelled from the spec: `core.guess_chr_x` is not under src/; the spec
(§4.1) says the X chromosome label is auto-detected from the sample's naming
convention, "chr"-prefixed or bare. -/
def guess_chr_x (cnarr : CNA) : String :=
  if (cnarr.chromosome.headD "").startsWith "chr" then "chrX" else "X"

/-- `chr_y = ('chrY' if chr_x.startswith('chr') else 'Y')` (reference.py
line 37): the Y label derived from the X label, preserving the prefix
convention. -/
def chr_y_of (chr_x : String) : String :=
  if chr_x.startsWith "chr" then "chrY" else "Y"

/-- The probe-grid comparison of `combine_probes` (reference.py lines 73-77):
equal length and identical chromosome, start, end and gene columns. -/
def grid_matches (a b : CNA) : Bool :=
  (a.size == b.size) && (a.chromosome == b.chromosome) && (a.start == b.start)
    && (a.stop == b.stop) && (a.gene == b.gene)

/-- The error message of reference.py lines 78-79:
`"%s probes do not match those in %s" % (fname, filenames[0])`. -/
def mismatch_msg (fname fname1 : String) : String :=
  fname ++ " probes do not match those in " ++ fname1

/-- The loop of `combine_probes` over `filenames[1:]`: validate each sample's
grid against the (already shifted, grid-identical) first sample, shift its sex
chromosomes and collect its coverage row; the first mismatch aborts with an
error naming the offending source and the first source. -/
def load_rest (g : CNA → Bool) (imn : Bool) (chr_x chr_y : String)
    (cnarr1 : CNA) (fname1 : String) :
    List (String × CNA) → Except String (List (List ℚ))
  | [] => Except.ok []
  | (fname, pset) :: rest =>
    if grid_matches cnarr1 pset then
      match load_rest g imn chr_x chr_y cnarr1 fname1 rest with
      | Except.ok tl =>
          Except.ok ((shift_sex_chroms imn chr_x chr_y g pset).coverage :: tl)
      | Except.error e => Except.error e
    else Except.error (mismatch_msg fname fname1)

/-- Assembly of the reference profile (reference.py lines 84-102): aggregated
centers as coverage, spreads as the spread column, gc reused from the first
sample when present, else reserved (zeros) when `has_genome`; rmask reserved
when `has_genome`. -/
def assemble_reference (has_genome : Bool) (c1 : CNA) (tl : List (List ℚ)) : CNA :=
  { sample_id := "reference"
    chromosome := c1.chromosome
    start := c1.start
    stop := c1.stop
    gene := c1.gene
    coverage := cvg_centers c1.coverage.length (c1.coverage :: tl)
    spread? := some (cvg_spreads c1.coverage.length (c1.coverage :: tl))
    gc? := (match c1.gc? with
            | some gcs => some gcs
            | none => if has_genome then some (List.replicate c1.size 0) else none)
    rmask? := if has_genome then some (List.replicate c1.size 0) else none }

/-- `combine_probes` (reference.py lines 20-102): shift the first sample, load
and validate the rest, aggregate and assemble the reference. -/
def combine_probes (g : CNA → Bool) (first : String × CNA)
    (rest : List (String × CNA)) (has_genome is_male_normal : Bool) :
    Except String CNA :=
  match load_rest g is_male_normal (guess_chr_x first.2)
      (chr_y_of (guess_chr_x first.2))
      (shift_sex_chroms is_male_normal (guess_chr_x first.2)
        (chr_y_of (guess_chr_x first.2)) g first.2) first.1 rest with
  | Except.error e => Except.error e
  | Except.ok tl =>
      Except.ok (assemble_reference has_genome
        (shift_sex_chroms is_male_normal (guess_chr_x first.2)
          (chr_y_of (guess_chr_x first.2)) g first.2) tl)

/-- Shifting the sex chromosomes does not change the outcome of the grid
comparison: `combine_probes` compares against the already-shifted first
sample, but its grid is the original one. -/
theorem grid_matches_shift (m : Bool) (cx cy : String) (g : CNA → Bool)
    (a b : CNA) :
    grid_matches (shift_sex_chroms m cx cy g a) b = grid_matches a b := by
  obtain ⟨_, h2, h3, h4, h5, _, _, _⟩ := shift_sex_chroms_grid m cx cy g a
  unfold grid_matches CNA.size
  rw [h2, h3, h4, h5]

/-- If every remaining sample's grid matches, the loading loop succeeds. -/
theorem load_rest_ok (g : CNA → Bool) (imn : Bool) (cx cy : String)
    (c1 : CNA) (fname1 : String) (rest : List (String × CNA))
    (hall : ∀ p ∈ rest, grid_matches c1 p.2 = true) :
    ∃ tl, load_rest g imn cx cy c1 fname1 rest = Except.ok tl := by
  induction rest with
  | nil => exact ⟨[], rfl⟩
  | cons hd tl ih =>
    obtain ⟨fname, pset⟩ := hd
    obtain ⟨r, hr⟩ := ih (fun p hp => hall p (List.mem_cons_of_mem _ hp))
    exact ⟨(shift_sex_chroms imn cx cy g pset).coverage :: r,
      by simp [load_rest, hall _ (List.mem_cons_self _ _), hr]⟩

/-- The loading loop stops at the first grid mismatch, with the error message
naming the offending source and the first source. -/
theorem load_rest_error (g : CNA → Bool) (imn : Bool) (cx cy : String)
    (c1 : CNA) (fname1 : String) (pre : List (String × CNA)) (fname : String)
    (pset : CNA) (post : List (String × CNA))
    (hpre : ∀ q ∈ pre, grid_matches c1 q.2 = true)
    (hbad : grid_matches c1 pset = false) :
    load_rest g imn cx cy c1 fname1 (pre ++ (fname, pset) :: post) =
      Except.error (mismatch_msg fname fname1) := by
  induction pre with
  | nil => simp [load_rest, hbad]
  | cons hd tl ih =>
    obtain ⟨f0, p0⟩ := hd
    rw [List.cons_append]
    simp [load_rest, hpre _ (List.mem_cons_self _ _),
      ih (fun q hq => hpre q (List.mem_cons_of_mem _ hq))]

/-- C3: `combine_probes` raises an error naming the offending source and the
first (canonical) source if and only if some sample after the first differs
from the first sample in length or in any chromosome, start, end or gene
value; when all samples agree on the grid, no error is raised and a reference
profile is returned.  The second conjunct pins down the exact error: the first
offending sample in order is the one named. -/
theorem C3_combine_probes_grid_mismatch (g : CNA → Bool) (first : String × CNA)
    (rest : List (String × CNA)) (hg imn : Bool) :
    ((∀ p ∈ rest, grid_matches first.2 p.2 = true) →
      ∃ out, combine_probes g first rest hg imn = Except.ok out) ∧
    (∀ (pre : List (String × CNA)) (fname : String) (pset : CNA)
        (post : List (String × CNA)),
      rest = pre ++ (fname, pset) :: post →
      (∀ q ∈ pre, grid_matches first.2 q.2 = true) →
      grid_matches first.2 pset = false →
      combine_probes g first rest hg imn =
        Except.error (mismatch_msg fname first.1)) := by
  constructor
  · intro hall
    obtain ⟨tl, htl⟩ := load_rest_ok g imn (guess_chr_x first.2)
      (chr_y_of (guess_chr_x first.2))
      (shift_sex_chroms imn (guess_chr_x first.2)
        (chr_y_of (guess_chr_x first.2)) g first.2) first.1 rest
      (fun p hp => by rw [grid_matches_shift]; exact hall p hp)
    exact ⟨assemble_reference hg
      (shift_sex_chroms imn (guess_chr_x first.2)
        (chr_y_of (guess_chr_x first.2)) g first.2) tl,
      by simp [combine_probes, htl]⟩
  · intro pre fname pset post hsplit hpre hbad
    have herr := load_rest_error g imn (guess_chr_x first.2)
      (chr_y_of (guess_chr_x first.2))
      (shift_sex_chroms imn (guess_chr_x first.2)
        (chr_y_of (guess_chr_x first.2)) g first.2) first.1 pre fname pset post
      (fun q hq => by rw [grid_matches_shift]; exact hpre q hq)
      (by rw [grid_matches_shift]; exact hbad)
    subst hsplit
    simp [combine_probes, herr]

/-- A sample disagreeing with `sampleXY` on one start coordinate. -/
def sampleBad : CNA := { sampleXY with start := [100, 201, 300] }

/-- Witness for C3: pooling `sampleXY` with an identical-grid copy succeeds;
adding a sample with one differing start coordinate fails with the error
naming the offending source and the first source. -/
theorem C3_combine_probes_grid_mismatch_witness :
    (∃ out, combine_probes (fun _ => true) ("f1", sampleXY) [("f2", sampleXY)]
      false true = Except.ok out) ∧
    combine_probes (fun _ => true) ("f1", sampleXY)
      [("f2", sampleXY), ("f3", sampleBad)] false true =
      Except.error (mismatch_msg "f3" "f1") := by
  constructor
  · exact (C3_combine_probes_grid_mismatch (fun _ => true) ("f1", sampleXY)
      [("f2", sampleXY)] false true).1 (by decide)
  · exact (C3_combine_probes_grid_mismatch (fun _ => true) ("f1", sampleXY)
      [("f2", sampleXY), ("f3", sampleBad)] false true).2
      [("f2", sampleXY)] "f3" sampleBad [] rfl (by decide) (by decide)

/-- When every grid matches, the loading loop returns exactly the per-sample
normalized coverage rows, each obtained by shifting that sample with the given
labels and the sex predicate applied to that sample itself. -/
theorem load_rest_ok_eq (g : CNA → Bool) (imn : Bool) (cx cy : String)
    (c1 : CNA) (fname1 : String) (rest : List (String × CNA))
    (hall : ∀ p ∈ rest, grid_matches c1 p.2 = true) :
    load_rest g imn cx cy c1 fname1 rest =
      Except.ok (rest.map (fun p => (shift_sex_chroms imn cx cy g p.2).coverage)) := by
  induction rest with
  | nil => rfl
  | cons hd tl ih =>
    obtain ⟨fname, pset⟩ := hd
    simp [load_rest, hall _ (List.mem_cons_self _ _),
      ih (fun p hp => hall p (List.mem_cons_of_mem _ hp))]

/-- A one-probe sample on a bare-named X chromosome with coverage 1. -/
def sampleX1 : CNA :=
  { sample_id := "a"
    chromosome := ["X"]
    start := [0]
    stop := [1]
    gene := ["G"]
    coverage := [1] }

/-- Same grid as `sampleX1` but coverage 0. -/
def sampleX0 : CNA := { sampleX1 with sample_id := "b", coverage := [0] }

/-- A sex predicate that inspects the sample's own coverage data: XX iff the
first coverage value is 0. -/
def gSexHead0 : CNA → Bool := fun c => decide (c.coverage.headD 0 = 0)

/-- Counterexample to C7: in the loading loop of `combine_probes`, the sex of
each sample is inferred from that sample itself, not from the first sample.
With the sex predicate `gSexHead0`, the first sample (coverage 1) is inferred
non-XX, yet the second sample (same grid, coverage 0) is inferred XX and its X
row is shifted by -1.0 in a male-normal build; had its sex been taken from the
first sample, its coverage would have stayed `[0]`, but the collected
normalized row is `[-1] ≠ [0]`. -/
theorem C7_counterexample :
    load_rest gSexHead0 true "X" "Y"
        (shift_sex_chroms true "X" "Y" gSexHead0 sampleX1) "f1"
        [("f2", sampleX0)] = Except.ok [[-1]] ∧
    gSexHead0 sampleX1 = false ∧
    shift_sex_chroms true "X" "Y" (fun _ => gSexHead0 sampleX1) sampleX0 =
      sampleX0 ∧
    sampleX0.coverage = [0] ∧ ((-1 : ℚ) ≠ 0) := by
  have h1 : gSexHead0 sampleX1 = false := by
    simp [gSexHead0, sampleX1]
  have h2 : gSexHead0 sampleX0 = true := by
    simp [gSexHead0, sampleX0, sampleX1]
  refine ⟨?_, h1, ?_, rfl, by norm_num⟩
  · have hshift1 : shift_sex_chroms true "X" "Y" gSexHead0 sampleX1 = sampleX1 := by
      simp [shift_sex_chroms, h1]
    have hshift2 : (shift_sex_chroms true "X" "Y" gSexHead0 sampleX0).coverage =
        [-1] := by
      simp only [shift_sex_chroms, h2, if_true]
      simp [sampleX0, sampleX1, maskedSub, maskedSet]
    rw [hshift1, load_rest_ok_eq gSexHead0 true "X" "Y" sampleX1 "f1" _ (by decide),
      List.map_cons, List.map_nil, hshift2]
  · simp [shift_sex_chroms, h1]

/-- C7 amended: in the sample-driven build the X/Y chromosome labels are
inferred from the first sample only, while the sex of each sample is inferred
from that sample itself by the external sex predicate: on a matching grid,
`combine_probes` succeeds and each sample's normalized coverage row is its own
shift under the first sample's labels and its own inferred sex. -/
theorem C7_labels_from_first_sex_per_sample (g : CNA → Bool)
    (imn hg : Bool) (first : String × CNA) (rest : List (String × CNA))
    (hall : ∀ p ∈ rest, grid_matches first.2 p.2 = true) :
    combine_probes g first rest hg imn =
      Except.ok (assemble_reference hg
        (shift_sex_chroms imn (guess_chr_x first.2)
          (chr_y_of (guess_chr_x first.2)) g first.2)
        (rest.map (fun p => (shift_sex_chroms imn (guess_chr_x first.2)
          (chr_y_of (guess_chr_x first.2)) g p.2).coverage))) := by
  have hok := load_rest_ok_eq g imn (guess_chr_x first.2)
    (chr_y_of (guess_chr_x first.2))
    (shift_sex_chroms imn (guess_chr_x first.2)
      (chr_y_of (guess_chr_x first.2)) g first.2) first.1 rest
    (fun p hp => by rw [grid_matches_shift]; exact hall p hp)
  simp [combine_probes, hok]

/-- Witness for the amended C7 on concrete samples: the build with
`gSexHead0`, first sample `sampleX1` and second sample `sampleX0` succeeds and
each normalized row uses the first sample's labels and its own sex. -/
theorem C7_labels_from_first_sex_per_sample_witness :
    combine_probes gSexHead0 ("f1", sampleX1) [("f2", sampleX0)] false true =
      Except.ok (assemble_reference false
        (shift_sex_chroms true (guess_chr_x sampleX1)
          (chr_y_of (guess_chr_x sampleX1)) gSexHead0 sampleX1)
        [(shift_sex_chroms true (guess_chr_x sampleX1)
          (chr_y_of (guess_chr_x sampleX1)) gSexHead0 sampleX0).coverage]) := by
  have h := C7_labels_from_first_sex_per_sample gSexHead0 true false
    ("f1", sampleX1) [("f2", sampleX0)] (by decide)
  simpa using h

/-! ### `mask_bad_probes` and `warn_bad_probes` (reference.py lines 105-154) -/

/-- `mask_bad_probes` (reference.py lines 145-154): flag probes with
excessively low or inconsistent coverage.  The thresholds
`params.MIN_BIN_COVERAGE`, `params.MAX_BIN_SPREAD` and
`params.MAX_REPEAT_FRACTION` live in the `params` module (not under src/);
following the spec's design note they are passed as an explicit immutable
configuration.  A profile without a spread column would raise `KeyError` in
the source; that degenerate case is modelled as an empty mask and excluded by
the well-formedness hypotheses of the theorems. -/
def mask_bad_probes (minCov maxSpread maxRep : ℚ) (probes : CNA) : List Bool :=
  match probes.spread? with
  | none => []
  | some sp =>
    match probes.rmask? with
    | some rm =>
        List.zipWith (fun b r => b || decide (r > maxRep))
          (List.zipWith (fun c s => decide (c < minCov) || decide (s > maxSpread))
            probes.coverage sp) rm
    | none =>
        List.zipWith (fun c s => decide (c < minCov) || decide (s > maxSpread))
          probes.coverage sp

/-- C4: a probe is flagged bad if and only if its coverage is strictly below
`minCov`, or its spread is strictly above `maxSpread`, or the profile has an
rmask column and the probe's rmask is strictly above `maxRep`; the mask has
one boolean per probe of the input. -/
theorem C4_mask_bad_probes (minCov maxSpread maxRep : ℚ) (probes : CNA)
    (sp : List ℚ) (hsp : probes.spread? = some sp)
    (hsl : sp.length = probes.coverage.length)
    (hrl : ∀ rm, probes.rmask? = some rm → rm.length = probes.coverage.length) :
    (mask_bad_probes minCov maxSpread maxRep probes).length =
      probes.coverage.length ∧
    (∀ i, i < probes.coverage.length →
      ((mask_bad_probes minCov maxSpread maxRep probes).getD i false = true ↔
        (probes.coverage.getD i 0 < minCov ∨ maxSpread < sp.getD i 0 ∨
          (∃ rm, probes.rmask? = some rm ∧ maxRep < rm.getD i 0)))) := by
  cases hrm : probes.rmask? with
  | none =>
    unfold mask_bad_probes
    rw [hsp, hrm]
    refine ⟨by simp [hsl], ?_⟩
    intro i hi
    have h1 : i < sp.length := by omega
    have hz : i < (List.zipWith
        (fun c s => decide (c < minCov) || decide (s > maxSpread))
        probes.coverage sp).length := by
      simp; omega
    rw [List.getD_eq_getElem _ _ hz, List.getElem_zipWith,
      List.getD_eq_getElem _ _ hi, List.getD_eq_getElem _ _ h1]
    simp
  | some rm =>
    have hrml : rm.length = probes.coverage.length := hrl rm hrm
    unfold mask_bad_probes
    rw [hsp, hrm]
    refine ⟨by simp [hsl, hrml], ?_⟩
    intro i hi
    have h1 : i < sp.length := by omega
    have h2 : i < rm.length := by omega
    have hz : i < (List.zipWith
        (fun c s => decide (c < minCov) || decide (s > maxSpread))
        probes.coverage sp).length := by
      simp; omega
    have hz2 : i < (List.zipWith (fun b r => b || decide (r > maxRep))
        (List.zipWith (fun c s => decide (c < minCov) || decide (s > maxSpread))
          probes.coverage sp) rm).length := by
      simp; omega
    rw [List.getD_eq_getElem _ _ hz2, List.getElem_zipWith,
      List.getElem_zipWith, List.getD_eq_getElem _ _ hi,
      List.getD_eq_getElem _ _ h1]
    simp [or_assoc, List.getElem?_eq_getElem h2]

/-- A concrete reference profile used to instantiate the quality-filter
witnesses: two target probes and one flagged background probe. -/
def refWit : CNA :=
  { sample_id := "reference"
    chromosome := ["chr1", "chr1", "chr1"]
    start := [0, 100, 200]
    stop := [50, 150, 250]
    gene := ["GENE1", "GENE2", "Background"]
    coverage := [0, 5, 0]
    spread? := some [0, 3, 0]
    rmask? := some [0, 0, 1] }

/-- Witness for C4 on `refWit` with thresholds (1, 2, 1/2): the mask is
per-probe, probe 0 is flagged by low coverage, probe 1 by high spread and
probe 2 by high rmask. -/
theorem C4_mask_bad_probes_witness :
    (mask_bad_probes 1 2 (1/2) refWit).length = refWit.coverage.length ∧
    ((mask_bad_probes 1 2 (1/2) refWit).getD 0 false = true ↔
      (refWit.coverage.getD 0 0 < 1 ∨ (2 : ℚ) < [(0 : ℚ), 3, 0].getD 0 0 ∨
        (∃ rm, refWit.rmask? = some rm ∧ (1/2 : ℚ) < rm.getD 0 0))) := by
  have h := C4_mask_bad_probes 1 2 (1/2) refWit [0, 3, 0] rfl (by decide)
    (fun rm hrm => by
      rw [show rm = ([0, 0, 1] : List ℚ) from (Option.some.inj hrm).symm]
      decide)
  exact ⟨h.1, h.2 0 (by decide)⟩

/-- Genes of the flagged probes: the row selection
`bad_probes = probes[mask_bad_probes(probes)]` restricted to the gene column,
which is all that the percentages of `warn_bad_probes` read. -/
def bad_genes (minCov maxSpread maxRep : ℚ) (probes : CNA) : List String :=
  ((probes.gene.zip (mask_bad_probes minCov maxSpread maxRep probes)).filter
    (fun p => p.2)).map (fun p => p.1)

/-- `warn_bad_probes` (reference.py lines 105-142), reduced to the numeric
data of its diagnostic output: the optional foreground percentage
`100 * len(fg_bad_probes) / sum(probes['gene'] != 'Background')`, computed
only when at least one flagged foreground probe exists (line 113), and the
optional background percentage
`100 * len(bg_bad_probes) / sum(probes['gene'] == 'Background')`, computed
only when at least one flagged background probe exists (line 139); `none`
means the percentage is never computed and nothing is emitted. -/
def warn_bad_probes (minCov maxSpread maxRep : ℚ) (probes : CNA) :
    Option ℚ × Option ℚ :=
  ((if 0 < ((bad_genes minCov maxSpread maxRep probes).filter
        (fun gname => decide (gname ≠ "Background"))).length then
      some (100 * (((bad_genes minCov maxSpread maxRep probes).filter
          (fun gname => decide (gname ≠ "Background"))).length : ℚ) /
        (probes.gene.countP (fun gname => decide (gname ≠ "Background")) : ℚ))
    else none),
   (if 0 < ((bad_genes minCov maxSpread maxRep probes).filter
        (fun gname => decide (gname = "Background"))).length then
      some (100 * (((bad_genes minCov maxSpread maxRep probes).filter
          (fun gname => decide (gname = "Background"))).length : ℚ) /
        (probes.gene.countP (fun gname => decide (gname = "Background")) : ℚ))
    else none))

/-- An `if`-guarded optional value is present exactly when the guarding list
is nonempty. -/
theorem isSome_if_length_pos {α β : Type} (L : List α) (e : β) :
    (if 0 < L.length then some e else none).isSome = true ↔ L ≠ [] := by
  by_cases hc : 0 < L.length
  · rw [if_pos hc]
    exact iff_of_true rfl (List.length_pos.mp hc)
  · rw [if_neg hc]
    refine iff_of_false (by simp) ?_
    intro h
    exact hc (List.length_pos.mpr h)

/-- Every flagged gene is a gene of the input profile. -/
theorem bad_genes_subset (minCov maxSpread maxRep : ℚ) (probes : CNA) :
    ∀ x ∈ bad_genes minCov maxSpread maxRep probes, x ∈ probes.gene := by
  intro x hx
  unfold bad_genes at hx
  obtain ⟨⟨a, b⟩, hmem, rfl⟩ := List.mem_map.mp hx
  exact (List.of_mem_zip (List.mem_filter.mp hmem).1).1

/-- C10: the bad-probe report never divides by zero.  The foreground
percentage is computed (is `some`) exactly when a flagged foreground probe
exists, and then the count of foreground probes in the profile is strictly
positive; likewise for the background percentage; an empty category yields
`none` (nothing emitted) rather than an error. -/
theorem C10_warn_bad_probes_no_div_by_zero (minCov maxSpread maxRep : ℚ)
    (probes : CNA) :
    ((warn_bad_probes minCov maxSpread maxRep probes).1.isSome = true →
      0 < probes.gene.countP (fun gname => decide (gname ≠ "Background"))) ∧
    ((warn_bad_probes minCov maxSpread maxRep probes).2.isSome = true →
      0 < probes.gene.countP (fun gname => decide (gname = "Background"))) ∧
    ((warn_bad_probes minCov maxSpread maxRep probes).1.isSome = true ↔
      ((bad_genes minCov maxSpread maxRep probes).filter
        (fun gname => decide (gname ≠ "Background"))) ≠ []) ∧
    ((warn_bad_probes minCov maxSpread maxRep probes).2.isSome = true ↔
      ((bad_genes minCov maxSpread maxRep probes).filter
        (fun gname => decide (gname = "Background"))) ≠ []) := by
  have hfg : ((bad_genes minCov maxSpread maxRep probes).filter
      (fun gname => decide (gname ≠ "Background"))) ≠ [] →
      0 < probes.gene.countP (fun gname => decide (gname ≠ "Background")) := by
    intro hne
    obtain ⟨x, hx⟩ := List.exists_mem_of_ne_nil _ hne
    have hx' := List.mem_filter.mp hx
    refine List.countP_pos_iff.mpr ⟨x, ?_, hx'.2⟩
    exact bad_genes_subset minCov maxSpread maxRep probes x hx'.1
  have hbg : ((bad_genes minCov maxSpread maxRep probes).filter
      (fun gname => decide (gname = "Background"))) ≠ [] →
      0 < probes.gene.countP (fun gname => decide (gname = "Background")) := by
    intro hne
    obtain ⟨x, hx⟩ := List.exists_mem_of_ne_nil _ hne
    have hx' := List.mem_filter.mp hx
    refine List.countP_pos_iff.mpr ⟨x, ?_, hx'.2⟩
    exact bad_genes_subset minCov maxSpread maxRep probes x hx'.1
  have hiff1 : (warn_bad_probes minCov maxSpread maxRep probes).1.isSome = true ↔
      ((bad_genes minCov maxSpread maxRep probes).filter
        (fun gname => decide (gname ≠ "Background"))) ≠ [] :=
    isSome_if_length_pos _ _
  have hiff2 : (warn_bad_probes minCov maxSpread maxRep probes).2.isSome = true ↔
      ((bad_genes minCov maxSpread maxRep probes).filter
        (fun gname => decide (gname = "Background"))) ≠ [] :=
    isSome_if_length_pos _ _
  exact ⟨fun h => hfg (hiff1.mp h), fun h => hbg (hiff2.mp h), hiff1, hiff2⟩

/-- Witness for C10 on `refWit` with thresholds (1, 2, 1/2): both percentages
are computed and both category totals are positive. -/
theorem C10_warn_bad_probes_no_div_by_zero_witness :
    ((warn_bad_probes 1 2 (1/2) refWit).1.isSome = true →
      0 < refWit.gene.countP (fun gname => decide (gname ≠ "Background"))) ∧
    ((warn_bad_probes 1 2 (1/2) refWit).1.isSome = true ↔
      ((bad_genes 1 2 (1/2) refWit).filter
        (fun gname => decide (gname ≠ "Background"))) ≠ []) :=
  ⟨(C10_warn_bad_probes_no_div_by_zero 1 2 (1/2) refWit).1,
   (C10_warn_bad_probes_no_div_by_zero 1 2 (1/2) refWit).2.2.1⟩

/-! ### `bed2probes` (reference.py lines 12-17): the flat build -/

/-- `bed2probes` (reference.py lines 12-17): neutral-coverage probes from
intervals.  `ngfrills.parse_regions` (interval-file parsing, an external
collaborator per the spec) is modelled by taking its parsed
`(chrom, start, end, name)` rows as input, and `core.fbase` (path stripping,
outside src/) by the file-name argument itself.  Each region becomes the row
`(chrom, start, end, name, 0, 0, 0, 0)` and `CNA.from_rows` (the `cnarray`
module, not under src/) assembles the columns with
`extra_keys=('gc', 'rmask', 'spread')` — the three extra columns are
unconditionally present, all zeros, as in the source tuple. -/
def bed2probes (bed_fname : String)
    (regions : List (String × Int × Int × String)) : CNA :=
  { sample_id := bed_fname
    chromosome := regions.map (fun r => r.1)
    start := regions.map (fun r => r.2.1)
    stop := regions.map (fun r => r.2.2.1)
    gene := regions.map (fun r => r.2.2.2)
    coverage := regions.map (fun _ => 0)
    spread? := some (regions.map (fun _ => 0))
    gc? := some (regions.map (fun _ => 0))
    rmask? := some (regions.map (fun _ => 0)) }

/-- Counterexample to C5: the flat build offers no way to request or omit the
gc/rmask columns — `bed2probes` always passes
`extra_keys=('gc', 'rmask', 'spread')` — so on a concrete two-interval input
the gc and rmask columns are present even though they were not requested
(there is no request parameter; presence is `true`, never `false`), refuting
"present if and only if requested". -/
theorem C5_counterexample :
    (bed2probes "flat" [("chr1", 0, 100, "A"), ("chr2", 5, 50, "B")]).gc?.isSome
        = true ∧
    (bed2probes "flat" [("chr1", 0, 100, "A"), ("chr2", 5, 50, "B")]).rmask?.isSome
        = true ∧
    ¬((bed2probes "flat" [("chr1", 0, 100, "A"), ("chr2", 5, 50, "B")]).gc?.isSome
        = true ↔ False) := by
  refine ⟨rfl, rfl, ?_⟩
  intro h
  exact h.mp rfl

/-- C5 amended: the flat build produces exactly one row per interval in input
order, coverage 0.0 and spread 0.0 on every row, gene taken from the
interval's name field, and the gc, rmask (and spread) columns are always
present, reserved as zeros — there is no request flag governing them. -/
theorem C5_bed2probes_flat (fname : String)
    (regions : List (String × Int × Int × String)) :
    (bed2probes fname regions).size = regions.length ∧
    (bed2probes fname regions).chromosome = regions.map (fun r => r.1) ∧
    (bed2probes fname regions).start = regions.map (fun r => r.2.1) ∧
    (bed2probes fname regions).stop = regions.map (fun r => r.2.2.1) ∧
    (bed2probes fname regions).gene = regions.map (fun r => r.2.2.2) ∧
    (bed2probes fname regions).coverage = List.replicate regions.length 0 ∧
    (bed2probes fname regions).spread? = some (List.replicate regions.length 0) ∧
    (bed2probes fname regions).gc? = some (List.replicate regions.length 0) ∧
    (bed2probes fname regions).rmask? = some (List.replicate regions.length 0) := by
  have hz : regions.map (fun _ => (0 : ℚ)) = List.replicate regions.length 0 := by
    rw [List.map_const']
  unfold bed2probes CNA.size
  refine ⟨by simp, rfl, rfl, rfl, rfl, hz, ?_, ?_, ?_⟩ <;> rw [hz]

/-! ### `calculate_gc_lo` (reference.py lines 169-180) -/

/-- `calculate_gc_lo` (reference.py lines 169-180): the GC and lowercase
(RepeatMasked) fraction of a sequence string, modelled as its list of
characters.  `tot` is the count of A/T/G/C letters of either case; if it is
zero the result is `(0.0, 0.0)`; otherwise
`frac_gc = (cnt_gc_lo + cnt_gc_up)/tot` and
`frac_lo = (cnt_at_lo + cnt_gc_lo)/tot`. -/
def calculate_gc_lo (subseq : List Char) : ℚ × ℚ :=
  if subseq.count 'G' + subseq.count 'C' + (subseq.count 'g' + subseq.count 'c') +
      (subseq.count 'A' + subseq.count 'T') + (subseq.count 'a' + subseq.count 't')
      = 0 then (0, 0)
  else
    (((subseq.count 'g' + subseq.count 'c' + (subseq.count 'G' + subseq.count 'C') : Nat) : ℚ) /
       ((subseq.count 'G' + subseq.count 'C' + (subseq.count 'g' + subseq.count 'c') +
         (subseq.count 'A' + subseq.count 'T') + (subseq.count 'a' + subseq.count 't') : Nat) : ℚ),
     ((subseq.count 'a' + subseq.count 't' + (subseq.count 'g' + subseq.count 'c') : Nat) : ℚ) /
       ((subseq.count 'G' + subseq.count 'C' + (subseq.count 'g' + subseq.count 'c') +
         (subseq.count 'A' + subseq.count 'T') + (subseq.count 'a' + subseq.count 't') : Nat) : ℚ))

/-- Counting characters belonging to a duplicate-free pool, head case: the
occurrences of the head plus the occurrences of the rest. -/
theorem countP_mem_cons (c : Char) (cs : List Char) (s : List Char) (hc : c ∉ cs) :
    s.countP (fun ch => decide (ch ∈ c :: cs)) =
      s.count c + s.countP (fun ch => decide (ch ∈ cs)) := by
  induction s with
  | nil => rfl
  | cons d s ih =>
    simp only [List.countP_cons, List.count_cons, ih]
    by_cases hd : d = c
    · subst hd
      simp [hc]
      omega
    · by_cases hd2 : d ∈ cs <;> simp [hd, hd2] <;> omega

theorem countP_mem_nil (s : List Char) :
    s.countP (fun ch => decide (ch ∈ ([] : List Char))) = 0 := by
  simp

/-- The count of A/T/G/C characters of either case equals the sum of the
eight individual character counts, in the grouping used by the source. -/
theorem countP_atgc8 (s : List Char) :
    s.countP (fun ch => decide (ch ∈ (['a','t','g','c','A','T','G','C'] : List Char))) =
      s.count 'G' + s.count 'C' + (s.count 'g' + s.count 'c') +
        (s.count 'A' + s.count 'T') + (s.count 'a' + s.count 't') := by
  rw [countP_mem_cons 'a' _ s (by decide), countP_mem_cons 't' _ s (by decide),
    countP_mem_cons 'g' _ s (by decide), countP_mem_cons 'c' _ s (by decide),
    countP_mem_cons 'A' _ s (by decide), countP_mem_cons 'T' _ s (by decide),
    countP_mem_cons 'G' _ s (by decide), countP_mem_cons 'C' _ s (by decide),
    countP_mem_nil]
  omega

/-- The count of G/C characters of either case as the sum of the four counts,
in the grouping used by the source. -/
theorem countP_gc4 (s : List Char) :
    s.countP (fun ch => decide (ch ∈ (['g','c','G','C'] : List Char))) =
      s.count 'g' + s.count 'c' + (s.count 'G' + s.count 'C') := by
  rw [countP_mem_cons 'g' _ s (by decide), countP_mem_cons 'c' _ s (by decide),
    countP_mem_cons 'G' _ s (by decide), countP_mem_cons 'C' _ s (by decide),
    countP_mem_nil]
  omega

/-- The count of lowercase a/t/g/c characters as the sum of the four counts,
in the grouping used by the source. -/
theorem countP_lo4 (s : List Char) :
    s.countP (fun ch => decide (ch ∈ (['a','t','g','c'] : List Char))) =
      s.count 'a' + s.count 't' + (s.count 'g' + s.count 'c') := by
  rw [countP_mem_cons 'a' _ s (by decide), countP_mem_cons 't' _ s (by decide),
    countP_mem_cons 'g' _ s (by decide), countP_mem_cons 'c' _ s (by decide),
    countP_mem_nil]
  omega

/-- C6: for every string, `calculate_gc_lo` returns `(0, 0)` when the string
has no character among a/t/g/c/A/T/G/C; otherwise, with `total` the count of
such characters, it returns `gc = (count of g,c,G,C)/total` and
`rmask = (count of lowercase a,t,g,c)/total`; in particular the empty string
gives `(0, 0)`, `"GCgc"` gives `(1, 1/2)` and `"ATat"` gives `(0, 1/2)`; both
returned values always lie in `[0, 1]`. -/
theorem C6_calculate_gc_lo (s : List Char) :
    ((∀ ch ∈ s, ch ∉ (['a','t','g','c','A','T','G','C'] : List Char)) →
      calculate_gc_lo s = (0, 0)) ∧
    ((∃ ch ∈ s, ch ∈ (['a','t','g','c','A','T','G','C'] : List Char)) →
      calculate_gc_lo s =
        ((s.countP (fun ch => decide (ch ∈ (['g','c','G','C'] : List Char))) : ℚ) /
           (s.countP (fun ch =>
             decide (ch ∈ (['a','t','g','c','A','T','G','C'] : List Char))) : ℚ),
         (s.countP (fun ch => decide (ch ∈ (['a','t','g','c'] : List Char))) : ℚ) /
           (s.countP (fun ch =>
             decide (ch ∈ (['a','t','g','c','A','T','G','C'] : List Char))) : ℚ))) ∧
    (0 ≤ (calculate_gc_lo s).1 ∧ (calculate_gc_lo s).1 ≤ 1 ∧
      0 ≤ (calculate_gc_lo s).2 ∧ (calculate_gc_lo s).2 ≤ 1) ∧
    calculate_gc_lo [] = (0, 0) ∧
    calculate_gc_lo ['G', 'C', 'g', 'c'] = (1, 1/2) ∧
    calculate_gc_lo ['A', 'T', 'a', 't'] = (0, 1/2) := by
  refine ⟨?_, ?_, ?_, ?_, ?_, ?_⟩
  · intro h
    have ha : s.count 'a' = 0 := List.count_eq_zero.2 (fun hm => h 'a' hm (by decide))
    have ht : s.count 't' = 0 := List.count_eq_zero.2 (fun hm => h 't' hm (by decide))
    have hg : s.count 'g' = 0 := List.count_eq_zero.2 (fun hm => h 'g' hm (by decide))
    have hc : s.count 'c' = 0 := List.count_eq_zero.2 (fun hm => h 'c' hm (by decide))
    have hA : s.count 'A' = 0 := List.count_eq_zero.2 (fun hm => h 'A' hm (by decide))
    have hT : s.count 'T' = 0 := List.count_eq_zero.2 (fun hm => h 'T' hm (by decide))
    have hG : s.count 'G' = 0 := List.count_eq_zero.2 (fun hm => h 'G' hm (by decide))
    have hC : s.count 'C' = 0 := List.count_eq_zero.2 (fun hm => h 'C' hm (by decide))
    unfold calculate_gc_lo
    rw [ha, ht, hg, hc, hA, hT, hG, hC]
    norm_num
  · rintro ⟨ch, hch, hmem⟩
    have hpos : 0 < s.countP (fun ch =>
        decide (ch ∈ (['a','t','g','c','A','T','G','C'] : List Char))) :=
      List.countP_pos_iff.mpr ⟨ch, hch, by simpa using hmem⟩
    have h8 := countP_atgc8 s
    have htot : ¬(s.count 'G' + s.count 'C' + (s.count 'g' + s.count 'c') +
        (s.count 'A' + s.count 'T') + (s.count 'a' + s.count 't') = 0) := by omega
    unfold calculate_gc_lo
    rw [if_neg htot, countP_gc4, countP_lo4, h8]
  · by_cases htot : s.count 'G' + s.count 'C' + (s.count 'g' + s.count 'c') +
        (s.count 'A' + s.count 'T') + (s.count 'a' + s.count 't') = 0
    · unfold calculate_gc_lo
      rw [if_pos htot]
      norm_num
    · have hB : (0 : ℚ) < ((s.count 'G' + s.count 'C' + (s.count 'g' + s.count 'c') +
          (s.count 'A' + s.count 'T') + (s.count 'a' + s.count 't') : Nat) : ℚ) := by
        exact_mod_cast Nat.pos_of_ne_zero htot
      have hgcle : ((s.count 'g' + s.count 'c' + (s.count 'G' + s.count 'C') : Nat) : ℚ) ≤
          ((s.count 'G' + s.count 'C' + (s.count 'g' + s.count 'c') +
            (s.count 'A' + s.count 'T') + (s.count 'a' + s.count 't') : Nat) : ℚ) := by
        exact_mod_cast (by omega :
          s.count 'g' + s.count 'c' + (s.count 'G' + s.count 'C') ≤
            s.count 'G' + s.count 'C' + (s.count 'g' + s.count 'c') +
              (s.count 'A' + s.count 'T') + (s.count 'a' + s.count 't'))
      have hlole : ((s.count 'a' + s.count 't' + (s.count 'g' + s.count 'c') : Nat) : ℚ) ≤
          ((s.count 'G' + s.count 'C' + (s.count 'g' + s.count 'c') +
            (s.count 'A' + s.count 'T') + (s.count 'a' + s.count 't') : Nat) : ℚ) := by
        exact_mod_cast (by omega :
          s.count 'a' + s.count 't' + (s.count 'g' + s.count 'c') ≤
            s.count 'G' + s.count 'C' + (s.count 'g' + s.count 'c') +
              (s.count 'A' + s.count 'T') + (s.count 'a' + s.count 't'))
      unfold calculate_gc_lo
      rw [if_neg htot]
      refine ⟨by positivity, (div_le_one hB).2 hgcle, by positivity,
        (div_le_one hB).2 hlole⟩
  · rfl
  · have h1 : (['G','C','g','c'] : List Char).count 'G' = 1 := by decide
    have h2 : (['G','C','g','c'] : List Char).count 'C' = 1 := by decide
    have h3 : (['G','C','g','c'] : List Char).count 'g' = 1 := by decide
    have h4 : (['G','C','g','c'] : List Char).count 'c' = 1 := by decide
    have h5 : (['G','C','g','c'] : List Char).count 'A' = 0 := by decide
    have h6 : (['G','C','g','c'] : List Char).count 'T' = 0 := by decide
    have h7 : (['G','C','g','c'] : List Char).count 'a' = 0 := by decide
    have h8 : (['G','C','g','c'] : List Char).count 't' = 0 := by decide
    unfold calculate_gc_lo
    rw [h1, h2, h3, h4, h5, h6, h7, h8]
    norm_num
  · have h1 : (['A','T','a','t'] : List Char).count 'G' = 0 := by decide
    have h2 : (['A','T','a','t'] : List Char).count 'C' = 0 := by decide
    have h3 : (['A','T','a','t'] : List Char).count 'g' = 0 := by decide
    have h4 : (['A','T','a','t'] : List Char).count 'c' = 0 := by decide
    have h5 : (['A','T','a','t'] : List Char).count 'A' = 1 := by decide
    have h6 : (['A','T','a','t'] : List Char).count 'T' = 1 := by decide
    have h7 : (['A','T','a','t'] : List Char).count 'a' = 1 := by decide
    have h8 : (['A','T','a','t'] : List Char).count 't' = 1 := by decide
    unfold calculate_gc_lo
    rw [h1, h2, h3, h4, h5, h6, h7, h8]
    norm_num

/-- Witness for C6: the no-countable-bases case on `"NN"` and the general
formula on `"Ga"` (total 2, gc 1/2, rmask 1/2). -/
theorem C6_calculate_gc_lo_witness :
    calculate_gc_lo ['N', 'N'] = (0, 0) ∧
    calculate_gc_lo ['G', 'a'] =
      ((List.countP (fun ch => decide (ch ∈ (['g','c','G','C'] : List Char)))
          ['G', 'a'] : ℚ) /
         (List.countP (fun ch =>
           decide (ch ∈ (['a','t','g','c','A','T','G','C'] : List Char)))
           ['G', 'a'] : ℚ),
       (List.countP (fun ch => decide (ch ∈ (['a','t','g','c'] : List Char)))
          ['G', 'a'] : ℚ) /
         (List.countP (fun ch =>
           decide (ch ∈ (['a','t','g','c','A','T','G','C'] : List Char)))
           ['G', 'a'] : ℚ)) :=
  ⟨(C6_calculate_gc_lo ['N', 'N']).1 (by decide),
   (C6_calculate_gc_lo ['G', 'a']).2.1 ⟨'G', by decide, by decide⟩⟩

end CnvkitRef
